import Mathlib

/-!
Verification of the knowledge-gap bookkeeping pipeline of the repository
(query normalization, token-set Jaccard similarity matching, unanswered-query
ledger aggregation, knowledge-gap priority lifecycle, answer classification,
session-history handling of the query rewriter, and the vector block-average
reducer).  Every definition below is a shallow embedding of the corresponding
JavaScript function; machine floats are modelled by exact rationals, the
document store by a Lean list in insertion order, and external LLM calls by
explicit function parameters.
-/

/-! ## JavaScript string primitives

The source lowercases with `String.prototype.toLowerCase`, splits on the
regex `\s+`, trims with `String.prototype.trim`.  We model strings as their
character lists, lowercasing characterwise (the inputs of interest are
ASCII), and whitespace by the common JS whitespace characters. -/

/-- Character-wise lowercase, modelling `toLowerCase()` on ASCII text. -/
def jsLowerData (s : String) : List Char :=
  s.data.map Char.toLower

/-- Whitespace class of the JS regex `\s` (the characters relevant here). -/
def jsWhitespace (c : Char) : Bool :=
  c == ' ' || c == '\t' || c == '\n' || c == '\r' ||
  c == (Char.ofNat 11) || c == (Char.ofNat 12) || c == (Char.ofNat 0xa0)

/-- Splits a character list at every character satisfying `p`; models
`split` against a separator class (empty fragments between consecutive
separators are produced, exactly as happens around the anchors of the JS
split, and are discarded by the length filter of the caller). -/
def splitOnPredAux (p : Char → Bool) : List Char → List Char → List (List Char)
  | [], acc => [acc.reverse]
  | c :: rest, acc =>
    if p c then acc.reverse :: splitOnPredAux p rest []
    else splitOnPredAux p rest (c :: acc)

/-- Trim of leading and trailing JS whitespace, modelling `trim()`. -/
def jsTrim (cs : List Char) : List Char :=
  ((cs.dropWhile jsWhitespace).reverse.dropWhile jsWhitespace).reverse

/-! ## Similarity matcher (`queryService.js`)

`calculateStringSimilarity` lowercases both strings, splits on whitespace,
drops tokens of length at most 2, and returns the Jaccard coefficient of the
two token sets, with the both-empty special case mapped to 1. -/

/-- Token set of `str.toLowerCase().split(/\s+/).filter(word => word.length > 2)`,
as a finite set of character lists (JS `Set` of words). -/
def jsTokens (s : String) : Finset (List Char) :=
  ((splitOnPredAux jsWhitespace (jsLowerData s) []).filter
    (fun w => 2 < w.length)).toFinset

/-- Embedding of `calculateStringSimilarity` (token-set Jaccard). -/
def calculateStringSimilarity (s1 s2 : String) : ℚ :=
  if jsTokens s1 = ∅ ∧ jsTokens s2 = ∅ then 1
  else ((jsTokens s1 ∩ jsTokens s2).card : ℚ) / ((jsTokens s1 ∪ jsTokens s2).card : ℚ)

/-- Loop of `findSimilarQuery`: scans the candidates keeping the running
best match (`mostSimilar`) and its similarity (`highestSimilarity`), updating
whenever the candidate is strictly better than the running best and at least
at the threshold. -/
def findSimilarGo {α : Type} (sim : α → ℚ) (t : ℚ) :
    List α → Option α → ℚ → Option α
  | [], best, _ => best
  | c :: rest, best, hi =>
    if hi < sim c ∧ t ≤ sim c then findSimilarGo sim t rest (some c) (sim c)
    else findSimilarGo sim t rest best hi

/-- Embedding of `findSimilarQuery` generic in the candidate type: the JS
function is duck-typed and only reads `query.normalizedQuestion`, which the
projection `getNQ` supplies.  Both the question and the candidate text are
lowercased before comparison, as in the source; `simOf` is the similarity
computed for one candidate inside the loop. -/
def simOf {α : Type} (getNQ : α → String) (normalizedQuestion : String) (c : α) : ℚ :=
  calculateStringSimilarity ⟨jsLowerData normalizedQuestion⟩ ⟨jsLowerData (getNQ c)⟩

/-- Embedding of `findSimilarQuery` proper. -/
def findSimilarQueryP {α : Type} (getNQ : α → String) (normalizedQuestion : String)
    (existingQueries : List α) (threshold : ℚ) : Option α :=
  findSimilarGo (simOf getNQ normalizedQuestion) threshold existingQueries none 0

/-! ## Unanswered-query ledger (`QueryLog` model and `queryLogController.js`)

The document collection is modelled as a list in insertion order; a Mongoose
document mutation followed by `save()` is an in-place replacement (`List.set`)
at the index of the matched document, and `new QueryLog(...).save()` is an
append.  `Date.now()` is a `Nat` parameter.  A user identifier is
`Option String` (`none` models `null`/`undefined`). -/

/-- One `QueryLog` document (schema of `models/QueryLog.js`). -/
structure QueryLogEntry where
  originalQuestion : String
  normalizedQuestion : String
  answered : Bool
  answerSource : String
  askedByUsers : List (Option String)
  askCount : Nat
  originalQuestions : List (String × Nat)
  createdAt : Nat
  updatedAt : Nat
  lastAskedAt : Nat
deriving DecidableEq

/-- JS truthiness of the `userId` value, used by `userId ? [userId] : []`. -/
def truthyUser : Option String → Bool
  | none => false
  | some s => !(s == "")

/-- Update path of `logUnansweredQuery`: push the asker if absent, increment
the ask count, stamp `lastAskedAt`, append the verbatim occurrence, and save
(the save hook stamps `updatedAt`). -/
def updateSimilarQuery (e : QueryLogEntry) (originalQuestion : String)
    (userId : Option String) (now : Nat) : QueryLogEntry :=
  { e with
    askedByUsers :=
      if userId ∈ e.askedByUsers then e.askedByUsers
      else e.askedByUsers ++ [userId]
    askCount := e.askCount + 1
    lastAskedAt := now
    originalQuestions := e.originalQuestions ++ [(originalQuestion, now)]
    updatedAt := now }

/-- Create path of `logUnansweredQuery`: a fresh document with ask count 1,
one occurrence record, and an asker list that is empty unless `userId` is
truthy. -/
def newQueryLog (originalQuestion normalizedQuestion : String)
    (userId : Option String) (now : Nat) : QueryLogEntry :=
  { originalQuestion := originalQuestion
    normalizedQuestion := normalizedQuestion
    answered := false
    answerSource := "none"
    askedByUsers := if truthyUser userId then [userId] else []
    askCount := 1
    originalQuestions := [(originalQuestion, now)]
    createdAt := now
    updatedAt := now
    lastAskedAt := now }

/-- The pool handed to the similarity search: `QueryLog.find({answered:false})`
in collection order, each candidate paired with its collection index (the
index stands for the document identity that the JS mutation works through). -/
def unansweredPool (ledger : List QueryLogEntry) : List (Nat × QueryLogEntry) :=
  ledger.enum.filter (fun p => p.2.answered = false)

/-- Embedding of `logUnansweredQuery` from `controllers/queryLogController.js`.
`norm` is the (awaited) result of `normalizeQuery` as a function of the
original question; the external LLM inside it is irrelevant to the ledger
logic, which only sees the returned string. -/
def logUnansweredQuery (norm : String → String) (originalQuestion : String)
    (userId : Option String) (now : Nat)
    (ledger : List QueryLogEntry) : List QueryLogEntry :=
  let normalizedQuestion := norm originalQuestion
  match findSimilarQueryP (fun p => p.2.normalizedQuestion) normalizedQuestion
      (unansweredPool ledger) (7 / 10) with
  | some (i, e) => ledger.set i (updateSimilarQuery e originalQuestion userId now)
  | none => ledger ++ [newQueryLog originalQuestion normalizedQuestion userId now]

/-- One call of the ledger interface, for reasoning about call sequences. -/
structure LogCall where
  question : String
  userId : Option String
  now : Nat

/-- The ledger produced by a sequence of `logUnansweredQuery` calls starting
from an empty collection. -/
def runLog (norm : String → String) (calls : List LogCall) : List QueryLogEntry :=
  calls.foldl (fun L c => logUnansweredQuery norm c.question c.userId c.now L) []

/-! ## KnowledgeGap model (`models/KnowledgeGap.js`) -/

/-- The `status` enum (open, under_review, resolved). -/
inductive GapStatus where
  | opened
  | underReview
  | resolved
deriving DecidableEq

/-- The `priority` enum. -/
inductive GapPriority where
  | low
  | normal
  | high
  | critical
deriving DecidableEq

/-- One `KnowledgeGap` document.  `originalQueries` records
`(text, askedBy, askedAt)`, `resolution` records `(answer, addedBy, addedAt)`. -/
structure KnowledgeGap where
  normalizedQuery : String
  originalQueries : List (String × Option String × Nat)
  askCount : Nat
  priority : GapPriority
  status : GapStatus
  assignedTo : Option String
  resolution : Option (String × String × Nat)
deriving DecidableEq

/-- The priority ladder of the pre-save middleware as a function of the ask
count. -/
def priorityFor (askCount : Nat) : GapPriority :=
  if 10 ≤ askCount then .critical
  else if 5 ≤ askCount then .high
  else if 2 ≤ askCount then .normal
  else .low

/-- `save()` on a `KnowledgeGap` document: the pre-save middleware rewrites
`priority` from `askCount`, then the document is persisted unchanged. -/
def saveGap (g : KnowledgeGap) : KnowledgeGap :=
  { g with priority := priorityFor g.askCount }

/-- Instance method `incrementAskCount` (mutate then `save`). -/
def incrementAskCount (g : KnowledgeGap) (query : String)
    (userId : Option String) (now : Nat) : KnowledgeGap :=
  saveGap { g with
    askCount := g.askCount + 1
    originalQueries := g.originalQueries ++ [(query, userId, now)] }

/-- Instance method `resolve` (set status and resolution, then `save`). -/
def resolveGap (g : KnowledgeGap) (answer adminId : String) (now : Nat) :
    KnowledgeGap :=
  saveGap { g with
    status := .resolved
    resolution := some (answer, adminId, now) }

/-- Instance method `assignTo` (set status and assignee, then `save`). -/
def assignToGap (g : KnowledgeGap) (adminId : String) : KnowledgeGap :=
  saveGap { g with
    status := .underReview
    assignedTo := some adminId }

/-- `query.toLowerCase().trim()`, the canonical key of `findOrCreate`. -/
def kgNormalize (query : String) : String :=
  ⟨jsTrim (jsLowerData query)⟩

/-- The fresh document built by the create path of `findOrCreate` (schema
defaults fill `priority`, `assignedTo` and `resolution`; `create` runs the
save middleware, so the stored priority is recomputed from ask count 1). -/
def newGap (query normalized : String) (userId : Option String) (now : Nat) :
    KnowledgeGap :=
  saveGap
    { normalizedQuery := normalized
      originalQueries := [(query, userId, now)]
      askCount := 1
      priority := .normal
      status := .opened
      assignedTo := none
      resolution := none }

/-- Recursion of `findOrCreate` over the collection in order: the first
document with the wanted `normalizedQuery` and open status (the
`findOne` filter) is incremented in place; if none exists a fresh document
is appended.  Returns `(gap, created)` and the new collection. -/
def findOrCreateGo (query normalized : String) (userId : Option String)
    (now : Nat) : List KnowledgeGap → (KnowledgeGap × Bool) × List KnowledgeGap
  | [] =>
    let g := newGap query normalized userId now
    ((g, true), [g])
  | g :: rest =>
    if g.normalizedQuery = normalized ∧ g.status = .opened then
      let g2 := incrementAskCount g query userId now
      ((g2, false), g2 :: rest)
    else
      let r := findOrCreateGo query normalized userId now rest
      (r.1, g :: r.2)

/-- Embedding of the static `KnowledgeGap.findOrCreate`. -/
def findOrCreate (store : List KnowledgeGap) (query : String)
    (userId : Option String) (now : Nat) :
    (KnowledgeGap × Bool) × List KnowledgeGap :=
  findOrCreateGo query (kgNormalize query) userId now store

/-! ## Vector reducer (`chatController.js`)

`reduceDimensions` block-averages a source vector onto the hard-coded target
width 768.  The JS floats are modelled by exact rationals; the JS
`Math.floor(i * (N / 768))` bucket boundary is the exact floor
`⌊i * N / 768⌋`, which is Lean natural division. -/

/-- Embedding of `reduceDimensions`.  For an empty bucket (possible only when
the input is shorter than 768) the JS code produces `0/0 = NaN`; rational
division makes that value `0`, which is outside the documented precondition
and never relied on below. -/
def reduceDimensions (vector : List ℚ) : List ℚ :=
  (List.range 768).map (fun i =>
    let start := i * vector.length / 768
    let stop := (i + 1) * vector.length / 768
    ((vector.drop start).take (stop - start)).sum / ((stop - start : Nat) : ℚ))

/-! ## Chat orchestrator rewrite step (`chatController.js`)

`transformQuery` pushes the raw question onto the session history, sends the
framed message list to the LLM, and pops the raw-question turn after the call
returns.  The external chat completion is a parameter returning
`Except String String` (error or answer text); the embedding returns the call
result together with the session history left behind by the call. -/

/-- A chat turn (`{role, content}`). -/
structure ChatMsg where
  role : String
  content : String
deriving DecidableEq

/-- The system prompt of the rewrite step. -/
def rewritePrompt : String :=
  "You are a query rewriting expert. Based on the provided chat history, rephrase the \x22Follow Up user Question\x22 into a complete, standalone question that can be understood without the chat history.\nOnly output the rewritten question and nothing else."

/-- Embedding of `transformQuery`.  Returns the result of the LLM call and
the session history after the call: on success the temporary raw-question
turn is popped; if the call throws, the function exits before the pop and
the pushed turn stays in the history. -/
def transformQuery (llm : List ChatMsg → Except String String)
    (question : String) (history : List ChatMsg) :
    Except String String × List ChatMsg :=
  let pushed := history ++ [{ role := "user", content := question }]
  let messages := { role := "system", content := rewritePrompt } :: pushed
  match llm messages with
  | .error e => (.error e, pushed)
  | .ok answer => (.ok answer, pushed.dropLast)

/-! ## Text normalizer (`queryService.js`)

`normalizeQuery` delegates to the LLM; on success the reply is trimmed and
stripped of one leading and one trailing quotation mark (single or double);
on any error the original question is returned verbatim. -/

/-- A single or double quotation mark. -/
def isQuoteChar (c : Char) : Bool :=
  c == '\x22' || c == (Char.ofNat 39)

/-- The quote-stripping replace of the source: drop one leading and one trailing quote. -/
def stripWrappingQuotes (cs : List Char) : List Char :=
  let afterLead := match cs with
    | c :: rest => if isQuoteChar c then rest else cs
    | [] => []
  match afterLead.getLast? with
  | some c => if isQuoteChar c then afterLead.dropLast else afterLead
  | none => afterLead

/-- Embedding of `normalizeQuery`.  `llm` maps the original question to the
chat-completion outcome; the `catch` branch returns the original question
unchanged. -/
def normalizeQuery (llm : String → Except String String)
    (originalQuestion : String) : String :=
  match llm originalQuestion with
  | .error _ => originalQuestion
  | .ok reply => ⟨stripWrappingQuotes (jsTrim reply.data)⟩

/-! ## Answer classifier (`queryService.js`)

Each pattern of `isUnansweredResponse` is a case-insensitive regex of literal
fragments joined by `.*`.  Such a pattern matches a text exactly when some
maximal newline-free segment of the text contains the fragments in order
(`.` does not cross line terminators, and no fragment contains one).
Fragments are stored lowercase and matched against the lowercased text. -/

/-- A single-quote character as a string (the apostrophe of the patterns). -/
def sqc : String :=
  ⟨[Char.ofNat 39]⟩

/-- Searches for the first occurrence of `p` as a contiguous sublist and
returns the remainder after it, or `none` when `p` does not occur. -/
def dropAfterMatch (p : List Char) : List Char → Option (List Char)
  | [] => if p = [] then some [] else none
  | c :: rest =>
    if p.isPrefixOf (c :: rest) then some ((c :: rest).drop p.length)
    else dropAfterMatch p rest

/-- In-order occurrence of all fragments within one segment. -/
def seqMatch : List (List Char) → List Char → Bool
  | [], _ => true
  | p :: ps, s =>
    match dropAfterMatch p s with
    | some rest => seqMatch ps rest
    | none => false

/-- JS line terminators, which `.` does not match. -/
def jsNewline (c : Char) : Bool :=
  c == '\n' || c == '\r' || c == (Char.ofNat 0x2028) || c == (Char.ofNat 0x2029)

/-- `pattern.test(responseText)` for a fragment pattern with the `i` flag. -/
def regexTest (parts : List String) (text : String) : Bool :=
  (splitOnPredAux jsNewline (jsLowerData text) []).any
    (fun seg => seqMatch (parts.map String.data) seg)

/-- The fourteen patterns of `isUnansweredResponse`, each as its list of
literal fragments (lowercased; `\.` in the source is a literal dot). -/
def unansweredPatterns : List (List String) :=
  [ ["i can" ++ sqc ++ "t help", "contact", "staff"]
  , ["i don" ++ sqc ++ "t have", "information"]
  , ["i" ++ sqc ++ "m not sure", "about"]
  , ["i cannot provide", "information"]
  , ["i don" ++ sqc ++ "t have access", "to"]
  , ["i" ++ sqc ++ "m unable to", "help"]
  , ["i can" ++ sqc ++ "t assist", "with"]
  , ["i don" ++ sqc ++ "t have", "specific", "details"]
  , ["contact", "staff", "locally"]
  , ["student_help@jssaten.ac.in"]
  , ["i cannot answer", "without"]
  , ["i" ++ sqc ++ "m not equipped", "to"]
  , ["i lack", "information"]
  , ["i" ++ sqc ++ "m sorry", "i don" ++ sqc ++ "t know"] ]

/-- Embedding of `isUnansweredResponse`: true when any pattern matches. -/
def isUnansweredResponse (responseText : String) : Bool :=
  unansweredPatterns.any (fun p => regexTest p responseText)

/-- The canned fallback phrase of the system prompt, lowercased. -/
def fallbackPhrase : String :=
  "contact the staff locally at student_help@jssaten.ac.in"

/-! ## Concrete sample documents (used by witness instances) -/

/-- Convenience projection: similarity of a stored entry to a question. -/
def nqSim (q : String) (e : QueryLogEntry) : ℚ :=
  simOf (fun x : QueryLogEntry => x.normalizedQuestion) q e

/-- `findSimilarQuery` at the concrete candidate type of the source. -/
def findSimilarQuery (normalizedQuestion : String)
    (existingQueries : List QueryLogEntry) (threshold : ℚ) : Option QueryLogEntry :=
  findSimilarQueryP (fun q : QueryLogEntry => q.normalizedQuestion)
    normalizedQuestion existingQueries threshold

/-- An open (unanswered) ledger entry. -/
def sampleOpenEntry : QueryLogEntry :=
  { originalQuestion := "raw q"
    normalizedQuestion := "scholarship timeline"
    answered := false
    answerSource := "none"
    askedByUsers := []
    askCount := 1
    originalQuestions := [("raw q", 0)]
    createdAt := 0
    updatedAt := 0
    lastAskedAt := 0 }

/-- A resolved (answered) ledger entry for the same normalized question. -/
def sampleResolvedEntry : QueryLogEntry :=
  { originalQuestion := "raw q"
    normalizedQuestion := "scholarship timeline"
    answered := true
    answerSource := "human"
    askedByUsers := [some "u1"]
    askCount := 3
    originalQuestions := [("raw q", 0)]
    createdAt := 0
    updatedAt := 2
    lastAskedAt := 2 }

/-- A ledger entry whose vocabulary is disjoint from "banana split". -/
def sampleAppleEntry : QueryLogEntry :=
  { originalQuestion := "apple juice"
    normalizedQuestion := "apple juice"
    answered := false
    answerSource := "none"
    askedByUsers := []
    askCount := 1
    originalQuestions := [("apple juice", 0)]
    createdAt := 0
    updatedAt := 0
    lastAskedAt := 0 }

/-- A resolved knowledge gap for the canonical query text. -/
def sampleResolvedGap : KnowledgeGap :=
  { normalizedQuery := "scholarship timeline"
    originalQueries := [("raw q", none, 0)]
    askCount := 3
    priority := .normal
    status := .resolved
    assignedTo := none
    resolution := some ("the answer", "admin", 1) }

/-- An open knowledge gap with ask count 4 (one below the high threshold). -/
def sampleGap4 : KnowledgeGap :=
  { normalizedQuery := "scholarship timeline"
    originalQueries := [("raw q", none, 0)]
    askCount := 4
    priority := .normal
    status := .opened
    assignedTo := none
    resolution := none }

/-! ## Helper lemmas: similarity metric -/

lemma calculateStringSimilarity_self (s : String) :
    calculateStringSimilarity s s = 1 := by
  unfold calculateStringSimilarity
  by_cases h : jsTokens s = ∅
  · simp [h]
  · rw [if_neg (by simp [h]), Finset.inter_self, Finset.union_self]
    have hcard : (jsTokens s).card ≠ 0 := by
      simpa [Finset.card_eq_zero] using h
    exact div_self (by exact_mod_cast hcard)

lemma calculateStringSimilarity_nonneg (s1 s2 : String) :
    0 ≤ calculateStringSimilarity s1 s2 := by
  unfold calculateStringSimilarity
  split
  · norm_num
  · positivity

lemma calculateStringSimilarity_comm (s1 s2 : String) :
    calculateStringSimilarity s1 s2 = calculateStringSimilarity s2 s1 := by
  unfold calculateStringSimilarity
  rw [Finset.inter_comm, Finset.union_comm]
  by_cases h : jsTokens s1 = ∅ ∧ jsTokens s2 = ∅
  · rw [if_pos h, if_pos ⟨h.2, h.1⟩]
  · rw [if_neg h, if_neg (fun hc => h ⟨hc.2, hc.1⟩)]

lemma calculateStringSimilarity_disjoint (s1 s2 : String)
    (h : jsTokens s1 ∩ jsTokens s2 = ∅)
    (hne : ¬(jsTokens s1 = ∅ ∧ jsTokens s2 = ∅)) :
    calculateStringSimilarity s1 s2 = 0 := by
  unfold calculateStringSimilarity
  rw [if_neg hne, h]
  simp

lemma simOf_nonneg {α : Type} (getNQ : α → String) (q : String) (c : α) :
    0 ≤ simOf getNQ q c :=
  calculateStringSimilarity_nonneg _ _

/-! ## Helper lemmas: the candidate scan -/

/-- Full characterization of the scanning loop: either no candidate beats the
running pair `(best, hi)` while clearing the threshold and the result is
`best`, or the result is some candidate that cleared both, every candidate
before it stayed at or below the running maximum it beat, and every candidate
after it is no better than it or below the threshold. -/
lemma findSimilarGo_spec {α : Type} (sim : α → ℚ) (t : ℚ) :
    ∀ (cs : List α) (best : Option α) (hi : ℚ),
      (findSimilarGo sim t cs best hi = best ∧
        ∀ d ∈ cs, sim d ≤ hi ∨ sim d < t) ∨
      (∃ l₁ c l₂, cs = l₁ ++ c :: l₂ ∧
        findSimilarGo sim t cs best hi = some c ∧
        hi < sim c ∧ t ≤ sim c ∧
        (∀ d ∈ l₁, sim d ≤ hi ∨ sim d < sim c) ∧
        (∀ d ∈ l₂, sim d ≤ sim c ∨ sim d < t)) := by
  intro cs
  induction cs with
  | nil =>
    intro best hi
    exact Or.inl ⟨rfl, by simp⟩
  | cons c0 rest ih =>
    intro best hi
    by_cases h0 : hi < sim c0 ∧ t ≤ sim c0
    · have hstep : findSimilarGo sim t (c0 :: rest) best hi =
          findSimilarGo sim t rest (some c0) (sim c0) := by
        simp [findSimilarGo, h0]
      rcases ih (some c0) (sim c0) with ⟨hgo, hall⟩ | ⟨l₁, c, l₂, hcs, hgo, hhi, ht, hl1, hl2⟩
      · refine Or.inr ⟨[], c0, rest, by simp, ?_, h0.1, h0.2, by simp, ?_⟩
        · rw [hstep, hgo]
        · exact hall
      · refine Or.inr ⟨c0 :: l₁, c, l₂, by rw [hcs]; simp, ?_, ?_, ht, ?_, hl2⟩
        · rw [hstep, hgo]
        · exact lt_trans h0.1 hhi
        · intro d hd
          rcases List.mem_cons.mp hd with hd | hd
          · subst hd; exact Or.inr hhi
          · rcases hl1 d hd with h | h
            · exact Or.inr (lt_of_le_of_lt h hhi)
            · exact Or.inr h
    · have hstep : findSimilarGo sim t (c0 :: rest) best hi =
          findSimilarGo sim t rest best hi := by
        simp [findSimilarGo, h0]
      have h0' : sim c0 ≤ hi ∨ sim c0 < t := by
        rcases not_and_or.mp h0 with h | h
        · exact Or.inl (le_of_not_lt h)
        · exact Or.inr (lt_of_not_le h)
      rcases ih best hi with ⟨hgo, hall⟩ | ⟨l₁, c, l₂, hcs, hgo, hhi, ht, hl1, hl2⟩
      · refine Or.inl ⟨by rw [hstep, hgo], ?_⟩
        intro d hd
        rcases List.mem_cons.mp hd with hd | hd
        · subst hd; exact h0'
        · exact hall d hd
      · refine Or.inr ⟨c0 :: l₁, c, l₂, by rw [hcs]; simp, by rw [hstep, hgo], hhi, ht, ?_, hl2⟩
        intro d hd
        rcases List.mem_cons.mp hd with hd | hd
        · subst hd
          rcases h0' with h | h
          · exact Or.inl h
          · exact Or.inr (lt_of_lt_of_le h ht)
        · exact hl1 d hd

/-- If no candidate clears the threshold, the scan returns `null`. -/
lemma findSimilarQueryP_eq_none {α : Type} (getNQ : α → String) (q : String)
    (cs : List α) (t : ℚ) (h : ∀ c ∈ cs, simOf getNQ q c < t) :
    findSimilarQueryP getNQ q cs t = none := by
  unfold findSimilarQueryP
  rcases findSimilarGo_spec (simOf getNQ q) t cs none 0 with ⟨hgo, _⟩ | ⟨l₁, c, l₂, hcs, _, _, ht, _, _⟩
  · exact hgo
  · exact absurd (h c (by rw [hcs]; simp)) (not_lt.mpr ht)

/-- A returned candidate is a member of the scanned list. -/
lemma findSimilarQueryP_mem {α : Type} (getNQ : α → String) (q : String)
    (cs : List α) (t : ℚ) (c : α)
    (h : findSimilarQueryP getNQ q cs t = some c) : c ∈ cs := by
  unfold findSimilarQueryP at h
  rcases findSimilarGo_spec (simOf getNQ q) t cs none 0 with ⟨hgo, _⟩ | ⟨l₁, c', l₂, hcs, hgo, _, _, _, _⟩
  · rw [hgo] at h; exact absurd h (by simp)
  · rw [hgo] at h
    obtain rfl : c' = c := by injection h
    rw [hcs]; simp

/-! ## Claims -/

/-- Claim C6: the token-set Jaccard similarity is reflexive with value 1,
symmetric, and evaluates to 0 on two strings whose token sets (tokens longer
than 2 characters) are disjoint while at least one of them is nonempty. -/
theorem claim_C6_similarity_algebra :
    ∀ a b : String,
      calculateStringSimilarity a a = 1 ∧
      calculateStringSimilarity a b = calculateStringSimilarity b a ∧
      (jsTokens a ∩ jsTokens b = ∅ → (jsTokens a ≠ ∅ ∨ jsTokens b ≠ ∅) →
        calculateStringSimilarity a b = 0) :=
  fun a b =>
    ⟨calculateStringSimilarity_self a, calculateStringSimilarity_comm a b,
      fun h hne =>
        calculateStringSimilarity_disjoint a b h (fun hc => by tauto)⟩

/-- Witness for C6 at two concrete disjoint-vocabulary strings. -/
theorem claim_C6_similarity_algebra_witness :
    jsTokens "alpha beta" ∩ jsTokens "gamma delta" = ∅ ∧
    (jsTokens "alpha beta" ≠ ∅ ∨ jsTokens "gamma delta" ≠ ∅) ∧
    calculateStringSimilarity "alpha beta" "gamma delta" = 0 :=
  ⟨by decide, by decide,
    (claim_C6_similarity_algebra "alpha beta" "gamma delta").2.2
      (by decide) (by decide)⟩

/-- Claim C7: the priority stored by every save of a knowledge gap (plain
save, ask-count increment, assignment, resolution) is exactly the pure
threshold function of the ask count, whatever priority the document carried
before, and an increment from ask count 4 to 5 flips normal to high. -/
theorem claim_C7_priority_recomputed :
    ∀ (g : KnowledgeGap) (q : String) (uid : Option String) (now : Nat)
      (ans adm : String),
      (saveGap g).priority = priorityFor g.askCount ∧
      (incrementAskCount g q uid now).priority = priorityFor (g.askCount + 1) ∧
      (assignToGap g adm).priority = priorityFor g.askCount ∧
      (resolveGap g ans adm now).priority = priorityFor g.askCount ∧
      (∀ n : Nat,
        (10 ≤ n → priorityFor n = .critical) ∧
        (5 ≤ n → n < 10 → priorityFor n = .high) ∧
        (2 ≤ n → n < 5 → priorityFor n = .normal) ∧
        (n < 2 → priorityFor n = .low)) ∧
      (g.askCount = 4 →
        (saveGap g).priority = .normal ∧
        (incrementAskCount g q uid now).priority = .high) := by
  intro g q uid now ans adm
  refine ⟨rfl, rfl, rfl, rfl, ?_, ?_⟩
  · intro n
    refine ⟨fun h => ?_, fun h5 h10 => ?_, fun h2 h5 => ?_, fun h2 => ?_⟩
    · unfold priorityFor
      rw [if_pos h]
    · unfold priorityFor
      rw [if_neg (by omega), if_pos h5]
    · unfold priorityFor
      rw [if_neg (by omega), if_neg (by omega), if_pos h2]
    · unfold priorityFor
      rw [if_neg (by omega), if_neg (by omega), if_neg (by omega)]
  · intro h4
    constructor
    · show priorityFor g.askCount = .normal
      rw [h4]
      decide
    · show priorityFor (g.askCount + 1) = .high
      rw [h4]
      decide

/-- Witness for C7: the concrete gap with ask count 4 flips normal to high
on increment. -/
theorem claim_C7_priority_recomputed_witness :
    (saveGap sampleGap4).priority = .normal ∧
    (incrementAskCount sampleGap4 "q" none 7).priority = .high :=
  ⟨((claim_C7_priority_recomputed sampleGap4 "q" none 7 "a" "b").2.2.2.2.2 rfl).1,
    ((claim_C7_priority_recomputed sampleGap4 "q" none 7 "a" "b").2.2.2.2.2 rfl).2⟩

/-- Claim C9: if the chat-completion call inside `normalizeQuery` throws,
the function returns the original question verbatim (no trim, no quote
stripping) and never propagates the error. -/
theorem claim_C9_normalizer_fallback :
    ∀ (llm : String → Except String String) (q e : String),
      llm q = .error e → normalizeQuery llm q = q := by
  intro llm q e h
  unfold normalizeQuery
  rw [h]

/-- Witness for C9 at a concrete always-failing LLM. -/
theorem claim_C9_normalizer_fallback_witness :
    (fun _ : String => (Except.error "boom" : Except String String)) "  a query  " =
      Except.error "boom" ∧
    normalizeQuery (fun _ => Except.error "boom") "  a query  " = "  a query  " :=
  ⟨rfl, claim_C9_normalizer_fallback (fun _ => Except.error "boom") "  a query  " "boom" rfl⟩

/-- Counterexample to claim C3 as stated: when the rewrite LLM call throws,
the session history after `transformQuery` differs from the history before
the call (the temporarily pushed raw-question turn is not rolled back). -/
theorem claim_C3_counterexample :
    (transformQuery (fun _ => Except.error "rate limited") "hello there" []).2 ≠
      ([] : List ChatMsg) := by
  decide

/-- Claim C3 (amended): when `transformQuery` returns normally the session
history after the call equals the history before it (the temporary turn is
popped and no rewrite-framing turn is persisted); when the LLM call throws,
the history is exactly the old history with the raw-question turn appended. -/
theorem claim_C3_rewrite_history :
    ∀ (llm : List ChatMsg → Except String String) (q : String) (h : List ChatMsg),
      ((∃ a, (transformQuery llm q h).1 = .ok a) → (transformQuery llm q h).2 = h) ∧
      (∀ e, (transformQuery llm q h).1 = .error e →
        (transformQuery llm q h).2 = h ++ [{ role := "user", content := q }]) := by
  intro llm q h
  unfold transformQuery
  cases hl : llm ({ role := "system", content := rewritePrompt } ::
      (h ++ [{ role := "user", content := q }])) with
  | error e => simp [hl]
  | ok a => simp [hl]

/-- Witness for C3 at a concrete succeeding LLM and nonempty history. -/
theorem claim_C3_rewrite_history_witness :
    (transformQuery (fun _ => Except.ok "standalone question") "follow up"
        [{ role := "user", content := "prev" },
         { role := "assistant", content := "answer" }]).2 =
      [{ role := "user", content := "prev" },
       { role := "assistant", content := "answer" }] :=
  (claim_C3_rewrite_history (fun _ => Except.ok "standalone question") "follow up"
      [{ role := "user", content := "prev" },
       { role := "assistant", content := "answer" }]).1
    ⟨"standalone question", rfl⟩

/-- Counterexample to claim C5 as stated: at threshold 0 the sole candidate
clears the threshold (every similarity is at least 0), yet the scan returns
`null` because the update also requires a strict improvement over the running
maximum, which starts at 0. -/
theorem claim_C5_counterexample :
    (∃ c ∈ [sampleAppleEntry], (0 : ℚ) ≤ nqSim "banana split" c) ∧
    findSimilarQuery "banana split" [sampleAppleEntry] 0 = none := by
  constructor
  · exact ⟨sampleAppleEntry, by simp, simOf_nonneg _ _ _⟩
  · have hz : simOf (fun x : QueryLogEntry => x.normalizedQuestion)
        "banana split" sampleAppleEntry = 0 := by
      unfold simOf
      exact calculateStringSimilarity_disjoint _ _ (by decide) (by decide)
    simp only [findSimilarQuery, findSimilarQueryP]
    simp [findSimilarGo, hz]

/-- Claim C5 (amended with a positive threshold, as at both call sites):
with `0 < t` the scan returns `null` exactly when no candidate reaches the
threshold, and otherwise returns the first candidate attaining the maximum
similarity — every candidate is at most as similar as the returned one, and
every candidate before it is strictly less similar. -/
theorem claim_C5_selection_rule :
    ∀ (q : String) (cs : List QueryLogEntry) (t : ℚ), 0 < t →
      ((∀ c ∈ cs, nqSim q c < t) → findSimilarQuery q cs t = none) ∧
      ((∃ c ∈ cs, t ≤ nqSim q c) → ∃ c, findSimilarQuery q cs t = some c) ∧
      (∀ c, findSimilarQuery q cs t = some c →
        t ≤ nqSim q c ∧
        (∀ d ∈ cs, nqSim q d ≤ nqSim q c) ∧
        ∃ l₁ l₂, cs = l₁ ++ c :: l₂ ∧ ∀ d ∈ l₁, nqSim q d < nqSim q c) := by
  intro q cs t ht
  simp only [findSimilarQuery, findSimilarQueryP, nqSim]
  have hspec := findSimilarGo_spec
    (simOf (fun x : QueryLogEntry => x.normalizedQuestion) q) t cs none 0
  refine ⟨?_, ?_, ?_⟩
  · intro hall
    rcases hspec with ⟨hgo, _⟩ | ⟨l₁, c, l₂, hcs, _, _, htle, _, _⟩
    · exact hgo
    · exact absurd (hall c (by rw [hcs]; simp)) (not_lt.mpr htle)
  · rintro ⟨c0, hc0, hc0t⟩
    rcases hspec with ⟨_, hall⟩ | ⟨l₁, c, l₂, _, hgo, _, _, _, _⟩
    · rcases hall c0 hc0 with h | h
      · exact absurd (le_trans hc0t h) (not_le.mpr ht)
      · exact absurd hc0t (not_le.mpr h)
    · exact ⟨c, hgo⟩
  · intro c hc
    rcases hspec with ⟨hgo, _⟩ | ⟨l₁, c', l₂, hcs, hgo, _, htle, hl1, hl2⟩
    · rw [hgo] at hc
      exact absurd hc (by simp)
    · rw [hgo] at hc
      obtain rfl : c = c' := by injection hc with h1; exact h1.symm
      have hcpos : 0 < simOf (fun x : QueryLogEntry => x.normalizedQuestion) q c :=
        lt_of_lt_of_le ht htle
      refine ⟨htle, ?_, l₁, l₂, hcs, ?_⟩
      · intro d hd
        rw [hcs] at hd
        rcases List.mem_append.mp hd with hd | hd
        · rcases hl1 d hd with h | h
          · exact le_trans h (le_of_lt hcpos)
          · exact le_of_lt h
        · rcases List.mem_cons.mp hd with hd | hd
          · exact le_of_eq (by rw [hd])
          · rcases hl2 d hd with h | h
            · exact h
            · exact le_trans (le_of_lt h) htle
      · intro d hd
        rcases hl1 d hd with h | h
        · exact lt_of_le_of_lt h hcpos
        · exact h

/-- Witness for C5 at threshold 1 and a self-identical candidate. -/
theorem claim_C5_selection_rule_witness :
    ∃ c, findSimilarQuery "scholarship timeline" [sampleOpenEntry] 1 = some c :=
  (claim_C5_selection_rule "scholarship timeline" [sampleOpenEntry] 1 (by decide)).2.1
    ⟨sampleOpenEntry, by simp,
      le_of_eq (calculateStringSimilarity_self
        ⟨jsLowerData "scholarship timeline"⟩).symm⟩

/-! ## Helper lemmas: vector reducer -/

lemma sum_drop_take (v : List ℚ) :
    ∀ (s n : Nat),
      ((v.drop s).take n).sum = ∑ k ∈ Finset.range n, v.getD (s + k) 0 := by
  induction v with
  | nil =>
    intro s n
    simp
  | cons a w ih =>
    intro s n
    cases s with
    | zero =>
      cases n with
      | zero => simp
      | succ m =>
        rw [List.drop_zero, List.take_succ_cons, List.sum_cons,
          Finset.sum_range_succ' (fun k => (a :: w).getD (0 + k) 0) m]
        simp only [Nat.zero_add, List.getD_cons_succ, List.getD_cons_zero]
        have := ih 0 m
        rw [List.drop_zero] at this
        rw [this, add_comm]
        simp
    | succ s' =>
      rw [List.drop_succ_cons, ih s' n]
      refine Finset.sum_congr rfl ?_
      intro k _
      rw [show s' + 1 + k = (s' + k) + 1 by omega, List.getD_cons_succ]

lemma bucket_le (N i : Nat) (h : i + 1 ≤ 768) : (i + 1) * N / 768 ≤ N := by
  calc (i + 1) * N / 768 ≤ 768 * N / 768 :=
        Nat.div_le_div_right (Nat.mul_le_mul_right N h)
    _ = N := Nat.mul_div_cancel_left N (by norm_num)

lemma bucket_pos (N i : Nat) (hN : 768 ≤ N) :
    i * N / 768 < (i + 1) * N / 768 := by
  have h1 : i * N + 768 ≤ (i + 1) * N := by
    have : (i + 1) * N = i * N + N := by ring
    omega
  have h2 : i * N / 768 + 1 = (i * N + 768) / 768 :=
    (Nat.add_div_right (i * N) (by norm_num)).symm
  have h3 : (i * N + 768) / 768 ≤ (i + 1) * N / 768 := Nat.div_le_div_right h1
  omega

lemma reduceDimensions_getElem (v : List ℚ) (i : Nat) (hi : i < 768) :
    (reduceDimensions v)[i]? =
      some (((v.drop (i * v.length / 768)).take
          ((i + 1) * v.length / 768 - i * v.length / 768)).sum /
        (((i + 1) * v.length / 768 - i * v.length / 768 : Nat) : ℚ)) := by
  unfold reduceDimensions
  rw [List.getElem?_map]
  simp [List.getElem?_range, hi]

/-- Claim C4: for an input of length at least 768 the reducer outputs exactly
768 entries, entry `i` is the arithmetic mean of the source entries with
indices in `[⌊i*N/768⌋, ⌊(i+1)*N/768⌋)`, and a constant vector reduces to
the constant vector of length 768. -/
theorem claim_C4_reducer :
    ∀ v : List ℚ, 768 ≤ v.length →
      (reduceDimensions v).length = 768 ∧
      (∀ i, i < 768 → (reduceDimensions v)[i]? =
        some ((∑ j ∈ Finset.Ico (i * v.length / 768) ((i + 1) * v.length / 768),
            v.getD j 0) /
          (((i + 1) * v.length / 768 - i * v.length / 768 : Nat) : ℚ))) ∧
      (∀ (c : ℚ) (N : Nat), 768 ≤ N →
        reduceDimensions (List.replicate N c) = List.replicate 768 c) := by
  intro v hv
  refine ⟨by simp [reduceDimensions], ?_, ?_⟩
  · intro i hi
    rw [reduceDimensions_getElem v i hi, sum_drop_take,
      Finset.sum_Ico_eq_sum_range (fun j => v.getD j 0)
        (i * v.length / 768) ((i + 1) * v.length / 768)]
  · intro c N hN
    have hlen : (List.replicate N c).length = N := List.length_replicate N c
    have hout : ∀ b ∈ reduceDimensions (List.replicate N c), b = c := by
      intro b hb
      unfold reduceDimensions at hb
      rw [hlen] at hb
      rcases List.mem_map.mp hb with ⟨i, hi, hbi⟩
      rw [List.mem_range] at hi
      have hcnt : 0 < (i + 1) * N / 768 - i * N / 768 := by
        have := bucket_pos N i hN
        omega
      have hle : (i + 1) * N / 768 ≤ N := bucket_le N i (by omega)
      have hmin : min ((i + 1) * N / 768 - i * N / 768) (N - i * N / 768) =
          (i + 1) * N / 768 - i * N / 768 := by omega
      simp only [List.drop_replicate, List.take_replicate, List.sum_replicate,
        nsmul_eq_mul] at hbi
      rw [hmin] at hbi
      rw [← hbi]
      have hk : (((i + 1) * N / 768 - i * N / 768 : Nat) : ℚ) ≠ 0 :=
        Nat.cast_ne_zero.mpr (by omega)
      exact mul_div_cancel_left₀ c hk
    have hlen2 : (reduceDimensions (List.replicate N c)).length = 768 := by
      simp [reduceDimensions]
    rw [← hlen2]
    exact List.eq_replicate_length.mpr hout

/-- Witness for C4: the constant vector of length 768 reduces to itself. -/
theorem claim_C4_reducer_witness :
    reduceDimensions (List.replicate 768 (3 : ℚ)) = List.replicate 768 3 :=
  (claim_C4_reducer (List.replicate 768 3)
    (le_of_eq (List.length_replicate 768 (3 : ℚ)).symm)).2.2 3 768 (le_refl 768)

/-! ## Helper lemmas: ledger and knowledge-gap store -/

lemma mem_of_mem_unansweredPool {ledger : List QueryLogEntry} {i : Nat}
    {e : QueryLogEntry} (h : (i, e) ∈ unansweredPool ledger) :
    e ∈ ledger ∧ e.answered = false := by
  unfold unansweredPool at h
  rcases List.mem_filter.mp h with ⟨hmem, hans⟩
  rw [List.enum_eq_zip_range] at hmem
  exact ⟨(List.of_mem_zip hmem).2, by simpa using hans⟩

/-- Create path of `findOrCreateGo` when no open document carries the
normalized key. -/
lemma findOrCreateGo_create (query normalized : String) (userId : Option String)
    (now : Nat) :
    ∀ store : List KnowledgeGap,
      (∀ g ∈ store, g.normalizedQuery = normalized → g.status ≠ .opened) →
      findOrCreateGo query normalized userId now store =
        ((newGap query normalized userId now, true),
          store ++ [newGap query normalized userId now]) := by
  intro store
  induction store with
  | nil =>
    intro _
    rfl
  | cons g rest ih =>
    intro h
    have hg : ¬(g.normalizedQuery = normalized ∧ g.status = .opened) := by
      rintro ⟨h1, h2⟩
      exact h g (List.mem_cons_self g rest) h1 h2
    have hrest := ih (fun x hx => h x (List.mem_cons_of_mem g hx))
    simp only [findOrCreateGo, if_neg hg, hrest, List.cons_append]

/-- Claim C1: answered entries are excluded from the similarity pool of
`logUnansweredQuery` and open-status filtering excludes resolved knowledge
gaps from `findOrCreate`, so once every matching entry is resolved a new
unanswered occurrence appends a brand-new document with ask count 1 and
leaves every existing document (in particular the resolved one) unchanged. -/
theorem claim_C1_resolved_isolation :
    ∀ (norm : String → String) (q : String) (uid : Option String) (now : Nat)
      (ledger : List QueryLogEntry) (store : List KnowledgeGap),
      ((∀ e ∈ ledger, e.answered = false → nqSim (norm q) e < 7 / 10) →
        logUnansweredQuery norm q uid now ledger =
          ledger ++ [newQueryLog q (norm q) uid now] ∧
        (newQueryLog q (norm q) uid now).askCount = 1) ∧
      ((∀ g ∈ store, g.normalizedQuery = kgNormalize q → g.status ≠ .opened) →
        (findOrCreate store q uid now).1.2 = true ∧
        (findOrCreate store q uid now).1.1.askCount = 1 ∧
        (findOrCreate store q uid now).2 =
          store ++ [(findOrCreate store q uid now).1.1]) := by
  intro norm q uid now ledger store
  constructor
  · intro hnone
    have hpool : ∀ p ∈ unansweredPool ledger,
        simOf (fun x : Nat × QueryLogEntry => x.2.normalizedQuestion)
          (norm q) p < 7 / 10 := by
      rintro ⟨i, e⟩ hp
      rcases mem_of_mem_unansweredPool hp with ⟨hmem, hans⟩
      exact hnone e hmem hans
    have hfs := findSimilarQueryP_eq_none
      (fun x : Nat × QueryLogEntry => x.2.normalizedQuestion) (norm q)
      (unansweredPool ledger) (7 / 10) hpool
    constructor
    · simp only [logUnansweredQuery, hfs]
    · rfl
  · intro hopen
    have h := findOrCreateGo_create q (kgNormalize q) uid now store hopen
    unfold findOrCreate
    rw [h]
    exact ⟨rfl, rfl, rfl⟩

/-- Witness for C1: a ledger and a store holding only resolved documents for
the same canonical question text. -/
theorem claim_C1_resolved_isolation_witness :
    (logUnansweredQuery (fun _ => "scholarship timeline") "raw q" none 5
        [sampleResolvedEntry] =
      [sampleResolvedEntry] ++
        [newQueryLog "raw q" "scholarship timeline" none 5] ∧
      (newQueryLog "raw q" "scholarship timeline" none 5).askCount = 1) ∧
    ((findOrCreate [sampleResolvedGap] "Scholarship Timeline" none 5).1.2 = true ∧
      (findOrCreate [sampleResolvedGap] "Scholarship Timeline" none 5).1.1.askCount = 1 ∧
      (findOrCreate [sampleResolvedGap] "Scholarship Timeline" none 5).2 =
        [sampleResolvedGap] ++
          [(findOrCreate [sampleResolvedGap] "Scholarship Timeline" none 5).1.1]) :=
  ⟨(claim_C1_resolved_isolation (fun _ => "scholarship timeline") "raw q" none 5
      [sampleResolvedEntry] [sampleResolvedGap]).1 (by decide),
    (claim_C1_resolved_isolation (fun _ => "scholarship timeline") "Scholarship Timeline"
      none 5 [sampleResolvedEntry] [sampleResolvedGap]).2 (by decide)⟩

lemma newQueryLog_nodup (q nq : String) (uid : Option String) (now : Nat) :
    (newQueryLog q nq uid now).askedByUsers.Nodup := by
  by_cases h : truthyUser uid = true
  · simp [newQueryLog, h]
  · simp [newQueryLog, h]

lemma logUnansweredQuery_preserves (norm : String → String) (q : String)
    (uid : Option String) (now : Nat) (L : List QueryLogEntry)
    (h : ∀ e ∈ L, e.askCount = e.originalQuestions.length ∧ e.askedByUsers.Nodup) :
    ∀ e ∈ logUnansweredQuery norm q uid now L,
      e.askCount = e.originalQuestions.length ∧ e.askedByUsers.Nodup := by
  cases hfs : findSimilarQueryP (fun p : Nat × QueryLogEntry => p.2.normalizedQuestion)
      (norm q) (unansweredPool L) (7 / 10) with
  | none =>
    have hL : logUnansweredQuery norm q uid now L =
        L ++ [newQueryLog q (norm q) uid now] := by
      simp only [logUnansweredQuery, hfs]
    rw [hL]
    intro e he
    rcases List.mem_append.mp he with he | he
    · exact h e he
    · have : e = newQueryLog q (norm q) uid now := by simpa using he
      subst this
      exact ⟨rfl, newQueryLog_nodup q (norm q) uid now⟩
  | some p =>
    obtain ⟨i, e0⟩ := p
    have hL : logUnansweredQuery norm q uid now L =
        L.set i (updateSimilarQuery e0 q uid now) := by
      simp only [logUnansweredQuery, hfs]
    rw [hL]
    intro e he
    rcases List.mem_or_eq_of_mem_set he with he | he
    · exact h e he
    · subst he
      have he0 : e0 ∈ L ∧ e0.answered = false :=
        mem_of_mem_unansweredPool (findSimilarQueryP_mem _ _ _ _ _ hfs)
      rcases h e0 he0.1 with ⟨hc, hn⟩
      constructor
      · simp [updateSimilarQuery, hc]
      · unfold updateSimilarQuery
        by_cases hu : uid ∈ e0.askedByUsers
        · simpa [hu] using hn
        · simp [hu, List.nodup_append, hn]

lemma foldl_log_inv (norm : String → String) :
    ∀ (calls : List LogCall) (L : List QueryLogEntry),
      (∀ e ∈ L, e.askCount = e.originalQuestions.length ∧ e.askedByUsers.Nodup) →
      ∀ e ∈ calls.foldl
          (fun L c => logUnansweredQuery norm c.question c.userId c.now L) L,
        e.askCount = e.originalQuestions.length ∧ e.askedByUsers.Nodup := by
  intro calls
  induction calls with
  | nil =>
    intro L h
    simpa using h
  | cons c rest ih =>
    intro L h
    rw [List.foldl_cons]
    exact ih _ (logUnansweredQuery_preserves _ _ _ _ _ h)

/-- Claim C2: after any sequence of `logUnansweredQuery` calls from an empty
collection, every entry has ask count equal to its occurrence-list length and
a duplicate-free asker list; and two raw questions normalizing to the same
canonical text, asked by two different (nonempty) asker identifiers, leave
exactly one entry with ask count 2 and the two distinct askers. -/
theorem claim_C2_ledger_invariant :
    (∀ (norm : String → String) (calls : List LogCall),
      ∀ e ∈ runLog norm calls,
        e.askCount = e.originalQuestions.length ∧ e.askedByUsers.Nodup) ∧
    (∀ (norm : String → String) (r1 r2 u1 u2 : String) (n1 n2 : Nat),
      norm r1 = norm r2 → u1 ≠ u2 → u1 ≠ "" →
      runLog norm [⟨r1, some u1, n1⟩, ⟨r2, some u2, n2⟩] =
        [{ originalQuestion := r1
           normalizedQuestion := norm r1
           answered := false
           answerSource := "none"
           askedByUsers := [some u1, some u2]
           askCount := 2
           originalQuestions := [(r1, n1), (r2, n2)]
           createdAt := n1
           updatedAt := n2
           lastAskedAt := n2 }]) := by
  constructor
  · intro norm calls
    exact foldl_log_inv norm calls [] (by simp)
  · intro norm r1 r2 u1 u2 n1 n2 hnorm hne hu1
    have h1 : logUnansweredQuery norm r1 (some u1) n1 [] =
        [newQueryLog r1 (norm r1) (some u1) n1] := by
      have hfs : findSimilarQueryP
          (fun p : Nat × QueryLogEntry => p.2.normalizedQuestion) (norm r1)
          (unansweredPool []) (7 / 10) = none := rfl
      simp only [logUnansweredQuery, hfs, List.nil_append]
    have hpool : unansweredPool [newQueryLog r1 (norm r1) (some u1) n1] =
        [(0, newQueryLog r1 (norm r1) (some u1) n1)] := rfl
    have hsim : simOf (fun p : Nat × QueryLogEntry => p.2.normalizedQuestion)
        (norm r2) (0, newQueryLog r1 (norm r1) (some u1) n1) = 1 := by
      show calculateStringSimilarity ⟨jsLowerData (norm r2)⟩ ⟨jsLowerData (norm r1)⟩ = 1
      rw [hnorm]
      exact calculateStringSimilarity_self _
    have hfs2 : findSimilarQueryP
        (fun p : Nat × QueryLogEntry => p.2.normalizedQuestion) (norm r2)
        [(0, newQueryLog r1 (norm r1) (some u1) n1)] (7 / 10) =
        some (0, newQueryLog r1 (norm r1) (some u1) n1) := by
      unfold findSimilarQueryP
      simp only [findSimilarGo, hsim]
      rw [if_pos (by norm_num)]
    have h2 : logUnansweredQuery norm r2 (some u2) n2
        [newQueryLog r1 (norm r1) (some u1) n1] =
        [updateSimilarQuery (newQueryLog r1 (norm r1) (some u1) n1) r2 (some u2) n2] := by
      simp only [logUnansweredQuery, hpool, hfs2, List.set]
    have htr : truthyUser (some u1) = true := by
      simp [truthyUser, hu1]
    have hmem : (some u2 ∈ (newQueryLog r1 (norm r1) (some u1) n1).askedByUsers) = False := by
      simp [newQueryLog, htr, Ne.symm hne]
    simp only [runLog, List.foldl_cons, List.foldl_nil]
    rw [h1, h2]
    simp only [updateSimilarQuery, newQueryLog, htr, if_true, hmem, if_false]
    simp [Ne.symm hne]

/-- Witness for C2: two concrete askers and a constant normalizer. -/
theorem claim_C2_ledger_invariant_witness :
    runLog (fun _ => "scholarship timeline")
      [⟨"when scholarship", some "alice", 1⟩, ⟨"scholarship when", some "bob", 2⟩] =
      [{ originalQuestion := "when scholarship"
         normalizedQuestion := "scholarship timeline"
         answered := false
         answerSource := "none"
         askedByUsers := [some "alice", some "bob"]
         askCount := 2
         originalQuestions := [("when scholarship", 1), ("scholarship when", 2)]
         createdAt := 1
         updatedAt := 2
         lastAskedAt := 2 }] :=
  claim_C2_ledger_invariant.2 (fun _ => "scholarship timeline")
    "when scholarship" "scholarship when" "alice" "bob" 1 2
    rfl (by decide) (by decide)

lemma findSimilarQueryP_singleton_self {α : Type} (getNQ : α → String)
    (q : String) (c : α) (h : getNQ c = q) :
    findSimilarQueryP getNQ q [c] (7 / 10) = some c := by
  have hs : simOf getNQ q c = 1 := by
    unfold simOf
    rw [h]
    exact calculateStringSimilarity_self _
  unfold findSimilarQueryP
  simp only [findSimilarGo, hs]
  rw [if_pos (by norm_num)]

/-- Claim C10: an anonymous ask (`userId` null) contributes no asker element
on the create path (the fresh entry has an empty asker list), but on the
update path the null identifier is appended to the matched entry, at most
once across repeated anonymous asks. -/
theorem claim_C10_anonymous_asymmetry :
    ∀ (norm : String → String) (q : String) (now : Nat)
      (L : List QueryLogEntry),
      ((∀ e ∈ L, e.answered = false → nqSim (norm q) e < 7 / 10) →
        logUnansweredQuery norm q none now L =
          L ++ [newQueryLog q (norm q) none now] ∧
        (newQueryLog q (norm q) none now).askedByUsers = []) ∧
      (∀ (i : Nat) (e : QueryLogEntry),
        findSimilarQueryP (fun p : Nat × QueryLogEntry => p.2.normalizedQuestion)
            (norm q) (unansweredPool L) (7 / 10) = some (i, e) →
        logUnansweredQuery norm q none now L =
          L.set i (updateSimilarQuery e q none now) ∧
        (updateSimilarQuery e q none now).askedByUsers =
          (if (none : Option String) ∈ e.askedByUsers then e.askedByUsers
           else e.askedByUsers ++ [none]) ∧
        (e.askedByUsers.count (none : Option String) ≤ 1 →
          (updateSimilarQuery e q none now).askedByUsers.count
            (none : Option String) ≤ 1)) := by
  intro norm q now L
  constructor
  · intro hnone
    have hpool : ∀ p ∈ unansweredPool L,
        simOf (fun x : Nat × QueryLogEntry => x.2.normalizedQuestion)
          (norm q) p < 7 / 10 := by
      rintro ⟨i, e⟩ hp
      rcases mem_of_mem_unansweredPool hp with ⟨hmem, hans⟩
      exact hnone e hmem hans
    have hfs := findSimilarQueryP_eq_none
      (fun x : Nat × QueryLogEntry => x.2.normalizedQuestion) (norm q)
      (unansweredPool L) (7 / 10) hpool
    refine ⟨by simp only [logUnansweredQuery, hfs], ?_⟩
    simp [newQueryLog, truthyUser]
  · intro i e hfs
    refine ⟨by simp only [logUnansweredQuery, hfs], rfl, ?_⟩
    intro hcount
    unfold updateSimilarQuery
    by_cases hm : (none : Option String) ∈ e.askedByUsers
    · simpa [hm] using hcount
    · have : e.askedByUsers.count (none : Option String) = 0 :=
        List.count_eq_zero.mpr hm
      simp [hm, this]

/-- Witness for C10: the create path at an empty ledger and the update path
at a singleton matching open entry. -/
theorem claim_C10_anonymous_asymmetry_witness :
    (logUnansweredQuery (fun _ => "scholarship timeline") "raw q" none 3 [] =
      [] ++ [newQueryLog "raw q" "scholarship timeline" none 3] ∧
      (newQueryLog "raw q" "scholarship timeline" none 3).askedByUsers = []) ∧
    (logUnansweredQuery (fun _ => "scholarship timeline") "raw q" none 5
        [sampleOpenEntry] =
      [sampleOpenEntry].set 0 (updateSimilarQuery sampleOpenEntry "raw q" none 5) ∧
      (updateSimilarQuery sampleOpenEntry "raw q" none 5).askedByUsers =
        (if (none : Option String) ∈ sampleOpenEntry.askedByUsers
         then sampleOpenEntry.askedByUsers
         else sampleOpenEntry.askedByUsers ++ [none]) ∧
      (sampleOpenEntry.askedByUsers.count (none : Option String) ≤ 1 →
        (updateSimilarQuery sampleOpenEntry "raw q" none 5).askedByUsers.count
          (none : Option String) ≤ 1)) :=
  ⟨(claim_C10_anonymous_asymmetry (fun _ => "scholarship timeline") "raw q" 3 []).1
      (by simp),
    (claim_C10_anonymous_asymmetry (fun _ => "scholarship timeline") "raw q" 5
        [sampleOpenEntry]).2 0 sampleOpenEntry
      (findSimilarQueryP_singleton_self
        (fun p : Nat × QueryLogEntry => p.2.normalizedQuestion)
        "scholarship timeline" (0, sampleOpenEntry) rfl)⟩

/-! ## Helper lemmas: pattern matching of the classifier -/

lemma prefix_through_cons {p x y : List Char} {c : Char}
    (hp : p <+: (x ++ c :: y)) (hc : c ∉ p) : p <+: x := by
  induction p generalizing x with
  | nil => exact List.nil_prefix
  | cons d p' ih =>
    cases x with
    | nil =>
      rcases hp with ⟨r, hr⟩
      rw [List.cons_append] at hr
      injection hr with h1 h2
      exact absurd (h1 ▸ List.mem_cons_self d p') hc
    | cons a x' =>
      rcases hp with ⟨r, hr⟩
      rw [List.cons_append, List.cons_append] at hr
      injection hr with h1 h2
      subst h1
      have hpx : p' <+: x' :=
        ih ⟨r, h2⟩ (fun hm => hc (List.mem_cons_of_mem _ hm))
      rcases hpx with ⟨r', hr'⟩
      exact ⟨r', by rw [List.cons_append, hr']⟩

lemma sublistThrough {p x y : List Char} {c : Char}
    (h : p <:+: (x ++ c :: y)) (hc : c ∉ p) : p <:+: x ∨ p <:+: y := by
  induction x with
  | nil =>
    rcases h with ⟨s, t, hst⟩
    cases s with
    | nil =>
      cases p with
      | nil => exact Or.inr ⟨[], y, by simp⟩
      | cons d p' =>
        rw [List.nil_append, List.cons_append] at hst
        injection hst with h1 h2
        exact absurd (h1 ▸ List.mem_cons_self d p') hc
    | cons b s' =>
      rw [List.cons_append, List.cons_append] at hst
      rw [List.nil_append] at hst
      injection hst with h1 h2
      exact Or.inr ⟨s', t, h2⟩
  | cons a x' ih =>
    rcases h with ⟨s, t, hst⟩
    cases s with
    | nil =>
      have hp : p <+: ((a :: x') ++ c :: y) := ⟨t, by simpa using hst⟩
      rcases prefix_through_cons hp hc with ⟨r, hr⟩
      exact Or.inl ⟨[], r, by simpa using hr⟩
    | cons b s' =>
      rw [List.cons_append, List.cons_append, List.cons_append] at hst
      injection hst with h1 h2
      rcases ih ⟨s', t, h2⟩ with h | h
      · rcases h with ⟨u, w, huw⟩
        exact Or.inl ⟨a :: u, w, by rw [List.cons_append, List.cons_append, huw]⟩
      · exact Or.inr h

lemma dropAfterMatch_some {p s : List Char} (h : p <:+: s) :
    ∃ r, dropAfterMatch p s = some r := by
  induction s with
  | nil =>
    rcases h with ⟨u, w, huw⟩
    rcases List.append_eq_nil.mp huw with ⟨hu, hw⟩
    rcases List.append_eq_nil.mp hu with ⟨_, hp⟩
    subst hp
    exact ⟨[], rfl⟩
  | cons c s' ih =>
    by_cases hp : p.isPrefixOf (c :: s') = true
    · exact ⟨(c :: s').drop p.length, by simp [dropAfterMatch, hp]⟩
    · have h' : p <:+: s' := by
        rcases h with ⟨u, w, huw⟩
        cases u with
        | nil =>
          exfalso
          apply hp
          rw [ List.isPrefixOf_iff_prefix]
          exact ⟨w, by simpa using huw⟩
        | cons b u' =>
          rw [List.cons_append, List.cons_append] at huw
          injection huw with h1 h2
          exact ⟨u', w, h2⟩
      rcases ih h' with ⟨r, hr⟩
      exact ⟨r, by simp [dropAfterMatch, hp, hr]⟩

lemma segment_contains {p : List Char} (hnl : ∀ c ∈ p, jsNewline c = false) :
    ∀ (s acc : List Char), p <:+: (acc.reverse ++ s) →
      ∃ seg ∈ splitOnPredAux jsNewline s acc, p <:+: seg := by
  intro s
  induction s with
  | nil =>
    intro acc h
    exact ⟨acc.reverse, by simp [splitOnPredAux], by simpa using h⟩
  | cons c rest ih =>
    intro acc h
    by_cases hc : jsNewline c = true
    · have hcp : c ∉ p := fun hm => by
        rw [hnl c hm] at hc
        exact Bool.false_ne_true hc
      rcases sublistThrough h hcp with h1 | h1
      · exact ⟨acc.reverse, by simp [splitOnPredAux, hc], h1⟩
      · rcases ih [] (by simpa using h1) with ⟨seg, hs, hps⟩
        refine ⟨seg, ?_, hps⟩
        simp only [splitOnPredAux, hc, if_true, List.mem_cons]
        exact Or.inr hs
    · have h' : p <:+: ((c :: acc).reverse ++ rest) := by
        rw [List.reverse_cons, List.append_assoc]
        simpa using h
      rcases ih (c :: acc) h' with ⟨seg, hs, hps⟩
      refine ⟨seg, ?_, hps⟩
      simpa [splitOnPredAux, hc] using hs

lemma contains_phrase_unanswered (text : String)
    (h : fallbackPhrase.data <:+: jsLowerData text) :
    isUnansweredResponse text = true := by
  have hsub0 : ("student_help@jssaten.ac.in").data <:+: fallbackPhrase.data :=
    ⟨("contact the staff locally at ").data, [], by decide⟩
  have hsub : ("student_help@jssaten.ac.in").data <:+: jsLowerData text := by
    rcases hsub0 with ⟨a, b, hab⟩
    rcases h with ⟨u, w, huw⟩
    refine ⟨u ++ a, b ++ w, ?_⟩
    rw [← huw, ← hab]
    simp [List.append_assoc]
  obtain ⟨seg, hseg, hinf⟩ :=
    @segment_contains ("student_help@jssaten.ac.in").data (by decide)
      (jsLowerData text) [] (by simpa using hsub)
  obtain ⟨r, hr⟩ := dropAfterMatch_some hinf
  unfold isUnansweredResponse
  rw [List.any_eq_true]
  refine ⟨["student_help@jssaten.ac.in"], by decide, ?_⟩
  unfold regexTest
  rw [List.any_eq_true]
  exact ⟨seg, hseg, by simp [seqMatch, hr]⟩

/-- Counterexample to claim C8 as stated: an answer with no occurrence of the
fallback phrase is nevertheless classified unanswered, because another
pattern of the rule list matches. -/
theorem claim_C8_counterexample :
    isUnansweredResponse "I lack the information needed." = true ∧
    ¬ fallbackPhrase.data <:+: jsLowerData "I lack the information needed." := by
  constructor
  · decide
  · intro h
    obtain ⟨r, hr⟩ := dropAfterMatch_some h
    have hnone : dropAfterMatch fallbackPhrase.data
        (jsLowerData "I lack the information needed.") = none := by decide
    rw [hnone] at hr
    exact Option.noConfusion hr

/-- Claim C8 (amended): every answer containing the literal fallback phrase
(in any letter case) is classified unanswered; an answer is classified
answered exactly when none of the fourteen patterns matches — absence of the
phrase alone does not imply answered. -/
theorem claim_C8_classifier :
    ∀ text : String,
      (fallbackPhrase.data <:+: jsLowerData text →
        isUnansweredResponse text = true) ∧
      (isUnansweredResponse text = false ↔
        ∀ p ∈ unansweredPatterns, regexTest p text = false) := by
  intro text
  refine ⟨contains_phrase_unanswered text, ?_⟩
  unfold isUnansweredResponse
  simp [List.any_eq_false]

/-- Witness for C8 at a concrete answer containing the fallback phrase. -/
theorem claim_C8_classifier_witness :
    isUnansweredResponse
      "Please contact the staff locally at student_help@jssaten.ac.in for details." =
      true :=
  (claim_C8_classifier _).1
    ⟨("please ").data, (" for details.").data, by decide⟩
